import Mathlib

/-!
A shallow embedding of the `ClopiNet` sequence-embedding module from
`pyannote/audio/embedding/models.py`.

Tensors are modelled as rectangular arrays given by explicit dimensions plus a
total entry function; real (floating-point) arithmetic is modelled by `ℝ`.
Learned parameters (randomly initialised and later trained by the host
framework) are modelled as arbitrary real-valued functions supplied to the
constructor, so every theorem quantifies over all possible parameter values.
The `torch` library layers used by the module (`nn.LSTM`, `nn.GRU`,
`nn.Linear`, `F.tanh`, `F.softmax`, `nn.BatchNorm1d` with `affine=False` in
training mode) are modelled by their documented recurrences and formulas.
Python exceptions (`ValueError`, the `UnboundLocalError` on `attn`, and the
`RuntimeError` of `torch.cat` on an empty list) are modelled by `Except`.
-/

/-- A real 3-dimensional tensor of shape `(time, batch, feat)`; entries at
indices outside the declared dimensions are junk and are never observed. -/
structure Tensor3 where
  time : ℕ
  batch : ℕ
  feat : ℕ
  entry : ℕ → ℕ → ℕ → ℝ

/-- A real 2-dimensional tensor of shape `(batch, feat)`. -/
structure Tensor2 where
  batch : ℕ
  feat : ℕ
  entry : ℕ → ℕ → ℝ

/-- The empty tensor, base case of `torch.cat` on a list (unreachable: the
code raises on an empty list, which `catAll` never sees). -/
def zeroT3 : Tensor3 := ⟨0, 0, 0, fun _ _ _ => 0⟩

/-- Model of `torch.cat((x, y), dim=2)`: concatenation along the feature
axis. -/
def catFeat (x y : Tensor3) : Tensor3 :=
  ⟨x.time, x.batch, x.feat + y.feat,
   fun t b f => if f < x.feat then x.entry t b f else y.entry t b (f - x.feat)⟩

/-- Model of `torch.cat(outputs, dim=2)` on a nonempty list of tensors. -/
def catAll : List Tensor3 → Tensor3
  | [] => zeroT3
  | x :: xs => xs.foldl catFeat x

/-- Model of the slice `output[:, :, :len]`: restrict the feature axis to its
first `len` coordinates. -/
def sliceTo (x : Tensor3) (len : ℕ) : Tensor3 := { x with feat := len }

/-- Model of the slice `output[:, :, lo:]`: drop the first `lo` feature
coordinates. -/
def sliceFrom (x : Tensor3) (lo : ℕ) : Tensor3 :=
  ⟨x.time, x.batch, x.feat - lo, fun t b f => x.entry t b (lo + f)⟩

/-- Elementwise sum of two tensors of identical shape. -/
def add3 (x y : Tensor3) : Tensor3 :=
  ⟨x.time, x.batch, x.feat, fun t b f => x.entry t b f + y.entry t b f⟩

/-- Multiplication of a tensor by a scalar, as in `.5 * (...)`. -/
def scale3 (c : ℝ) (x : Tensor3) : Tensor3 :=
  { x with entry := fun t b f => c * x.entry t b f }

/-- Model of `F.tanh(output)`: elementwise hyperbolic tangent. -/
noncomputable def tanh3 (x : Tensor3) : Tensor3 :=
  { x with entry := fun t b f => Real.tanh (x.entry t b f) }

/-- A `torch.nn.Linear(inDim, outDim, bias=True)` layer: an `outDim × inDim`
weight matrix and a bias vector, applied as `y_i = Σ_j w i j * x_j + b_i`. -/
structure NnLinear where
  inDim : ℕ
  outDim : ℕ
  w : ℕ → ℕ → ℝ
  b : ℕ → ℝ

/-- Application of an `nn.Linear` layer along the feature axis of a
3-dimensional tensor (as done by `layer(output)` in the code). -/
noncomputable def applyLinear (L : NnLinear) (x : Tensor3) : Tensor3 :=
  ⟨x.time, x.batch, L.outDim,
   fun t b i => (∑ j ∈ Finset.range L.inDim, L.w i j * x.entry t b j) + L.b i⟩

/-- Model of `output = output * self.alphas_`: broadcast multiplication by a
per-dimension weight vector. -/
noncomputable def mulAlphas (a : ℕ → ℝ) (x : Tensor3) : Tensor3 :=
  { x with entry := fun t b f => x.entry t b f * a f }

/-- Model of `output = output * attn` where `attn` has feature dimension 1
(broadcast over the feature axis). -/
noncomputable def mulAttn (x a : Tensor3) : Tensor3 :=
  { x with entry := fun t b f => x.entry t b f * a.entry t b 0 }

/-- Model of `F.softmax(attn, dim=0)`: softmax over the time axis. -/
noncomputable def softmaxTime (x : Tensor3) : Tensor3 :=
  { x with entry := fun t b f =>
      Real.exp (x.entry t b f) / ∑ s ∈ Finset.range x.time, Real.exp (x.entry s b f) }

/-- Model of `output.sum(dim=0)`: sum over the time axis. -/
noncomputable def sumTime (x : Tensor3) : Tensor2 :=
  ⟨x.batch, x.feat, fun b f => ∑ t ∈ Finset.range x.time, x.entry t b f⟩

/-- Model of `torch.norm(output, 2, 1)` at batch row `b`: the L2 norm of that
row along the feature axis. -/
noncomputable def rowNorm (e : Tensor2) (b : ℕ) : ℝ :=
  Real.sqrt (∑ d ∈ Finset.range e.feat, e.entry b d ^ 2)

/-- Model of `output / torch.norm(output, 2, 1, keepdim=True)`: divide each
batch row by its L2 norm (no guard against a zero norm, as in the code). -/
noncomputable def l2normRows (e : Tensor2) : Tensor2 :=
  { e with entry := fun b d => e.entry b d / rowNorm e b }

/-- Model of `torch.norm(output, 2, 2)` at position `(t, b)`: the L2 norm of
the per-timestep vector along the feature axis. -/
noncomputable def stepNorm (x : Tensor3) (t b : ℕ) : ℝ :=
  Real.sqrt (∑ d ∈ Finset.range x.feat, x.entry t b d ^ 2)

/-- Model of `output / torch.norm(output, 2, 2, keepdim=True)` in internal
mode: divide each per-timestep vector by its L2 norm (again unguarded). -/
noncomputable def l2normT3 (x : Tensor3) : Tensor3 :=
  { x with entry := fun t b d => x.entry t b d / stepNorm x t b }

/-- The `eps=1e-5` constant of `nn.BatchNorm1d`. -/
noncomputable def bnEps : ℝ := 1 / 100000

/-- Per-feature batch mean used by `nn.BatchNorm1d` in training mode. -/
noncomputable def bnMean (e : Tensor2) (d : ℕ) : ℝ :=
  (∑ b ∈ Finset.range e.batch, e.entry b d) / (e.batch : ℝ)

/-- Per-feature (biased) batch variance used by `nn.BatchNorm1d` in training
mode. -/
noncomputable def bnVar (e : Tensor2) (d : ℕ) : ℝ :=
  (∑ b ∈ Finset.range e.batch, (e.entry b d - bnMean e d) ^ 2) / (e.batch : ℝ)

/-- Model of `self.batch_norm_(output)`: `nn.BatchNorm1d(dim, eps=1e-5,
affine=False)` in training mode normalises each feature by the batch
statistics. -/
noncomputable def batchNorm (e : Tensor2) : Tensor2 :=
  { e with entry := fun b d => (e.entry b d - bnMean e d) / Real.sqrt (bnVar e d + bnEps) }

/-- The parameter tensors of one direction of an `nn.LSTM`/`nn.GRU` layer:
`weight_ih`, `weight_hh`, `bias_ih`, `bias_hh`. -/
structure RnnParams where
  w_ih : ℕ → ℕ → ℝ
  w_hh : ℕ → ℕ → ℝ
  b_ih : ℕ → ℝ
  b_hh : ℕ → ℝ

/-- One recurrent layer: parameters for the forward direction and (used only
when bidirectional) the reverse direction. -/
structure RnnLayer where
  fwd : RnnParams
  rev : RnnParams

/-- The logistic sigmoid used by the LSTM and GRU gate recurrences. -/
noncomputable def sigmoid (x : ℝ) : ℝ := 1 / (1 + Real.exp (-x))

/-- The pre-activation gate vector of an LSTM cell:
`W_ih x + b_ih + W_hh h + b_hh` (a vector of length `4 * hdim`). -/
noncomputable def lstmGates (p : RnnParams) (inDim hdim : ℕ) (xv hv : ℕ → ℝ) (k : ℕ) : ℝ :=
  (∑ j ∈ Finset.range inDim, p.w_ih k j * xv j) + p.b_ih k +
    ((∑ j ∈ Finset.range hdim, p.w_hh k j * hv j) + p.b_hh k)

/-- The new cell state of an LSTM cell: `c' = f ⊙ c + i ⊙ tanh-gate`
(PyTorch gate order: input, forget, cell, output). -/
noncomputable def lstmC (p : RnnParams) (inDim hdim : ℕ) (xv hv cv : ℕ → ℝ) (k : ℕ) : ℝ :=
  sigmoid (lstmGates p inDim hdim xv hv (hdim + k)) * cv k +
    sigmoid (lstmGates p inDim hdim xv hv k) *
      Real.tanh (lstmGates p inDim hdim xv hv (2 * hdim + k))

/-- The new hidden state of an LSTM cell: `h' = o ⊙ tanh c'`. -/
noncomputable def lstmH (p : RnnParams) (inDim hdim : ℕ) (xv hv cv : ℕ → ℝ) (k : ℕ) : ℝ :=
  sigmoid (lstmGates p inDim hdim xv hv (3 * hdim + k)) *
    Real.tanh (lstmC p inDim hdim xv hv cv k)

/-- The batched LSTM state after `t` timesteps, starting from the zero hidden
and cell states created in `forward` (first component: hidden state as a
function of batch index and coordinate; second: cell state). -/
noncomputable def lstmState (p : RnnParams) (inDim hdim : ℕ) (x : Tensor3) :
    ℕ → ((ℕ → ℕ → ℝ) × (ℕ → ℕ → ℝ))
  | 0 => (fun _ _ => 0, fun _ _ => 0)
  | t + 1 =>
    let s := lstmState p inDim hdim x t
    (fun b k => lstmH p inDim hdim (x.entry t b) (s.1 b) (s.2 b) k,
     fun b k => lstmC p inDim hdim (x.entry t b) (s.1 b) (s.2 b) k)

/-- The input contribution `W_ih x + b_ih` of a GRU cell (length `3 * hdim`,
PyTorch gate order: reset, update, new). -/
noncomputable def gruGi (p : RnnParams) (inDim : ℕ) (xv : ℕ → ℝ) (k : ℕ) : ℝ :=
  (∑ j ∈ Finset.range inDim, p.w_ih k j * xv j) + p.b_ih k

/-- The hidden contribution `W_hh h + b_hh` of a GRU cell. -/
noncomputable def gruGh (p : RnnParams) (hdim : ℕ) (hv : ℕ → ℝ) (k : ℕ) : ℝ :=
  (∑ j ∈ Finset.range hdim, p.w_hh k j * hv j) + p.b_hh k

/-- The new hidden state of a GRU cell:
`h' = (1 - z) ⊙ n + z ⊙ h` with `r`, `z`, `n` as in the PyTorch docs. -/
noncomputable def gruNext (p : RnnParams) (inDim hdim : ℕ) (xv hv : ℕ → ℝ) (k : ℕ) : ℝ :=
  (1 - sigmoid (gruGi p inDim xv (hdim + k) + gruGh p hdim hv (hdim + k))) *
      Real.tanh (gruGi p inDim xv (2 * hdim + k) +
        sigmoid (gruGi p inDim xv k + gruGh p hdim hv k) * gruGh p hdim hv (2 * hdim + k)) +
    sigmoid (gruGi p inDim xv (hdim + k) + gruGh p hdim hv (hdim + k)) * hv k

/-- The batched GRU hidden state after `t` timesteps, starting from the zero
hidden state created in `forward`. -/
noncomputable def gruState (p : RnnParams) (inDim hdim : ℕ) (x : Tensor3) : ℕ → ℕ → ℕ → ℝ
  | 0 => fun _ _ => 0
  | t + 1 => fun b k => gruNext p inDim hdim (x.entry t b) (gruState p inDim hdim x t b) k

/-- Reversal of a tensor along the time axis (used to run the reverse
direction of a bidirectional layer). -/
def revTime (x : Tensor3) : Tensor3 :=
  { x with entry := fun t b f => x.entry (x.time - 1 - t) b f }

/-- The output sequence of one direction of a recurrent layer: position `t`
holds the hidden state after consuming inputs `0, …, t`. -/
noncomputable def runDir (kind : String) (p : RnnParams) (hdim : ℕ) (x : Tensor3) : Tensor3 :=
  ⟨x.time, x.batch, hdim,
   fun t b k =>
     if kind = "LSTM" then (lstmState p x.feat hdim x (t + 1)).1 b k
     else gruState p x.feat hdim x (t + 1) b k⟩

/-- Model of `output, _ = layer(output, hidden)`: a mono-directional layer
returns the forward direction; a bidirectional layer concatenates, per
timestep, the forward hidden state and the reverse-direction hidden state
(computed on the time-reversed input and laid out back in input order). -/
noncomputable def runRnnLayer (kind : String) (bidir : Bool) (L : RnnLayer) (hdim : ℕ)
    (x : Tensor3) : Tensor3 :=
  if bidir then
    catFeat (runDir kind L.fwd hdim x) (revTime (runDir kind L.rev hdim (revTime x)))
  else runDir kind L.fwd hdim x

/-- One iteration of the recurrent loop of `forward`: apply the layer, then —
if bidirectional — replace the output by
`.5 * (output[:, :, :hidden_dim] + output[:, :, hidden_dim:])`. -/
noncomputable def recStep (kind : String) (bidir : Bool) (x : Tensor3) (p : ℕ × RnnLayer) :
    Tensor3 :=
  if bidir then
    scale3 (1 / 2) (add3 (sliceTo (runRnnLayer kind bidir p.2 p.1 x) p.1)
      (sliceFrom (runRnnLayer kind bidir p.2 p.1 x) p.1))
  else runRnnLayer kind bidir p.2 p.1 x

/-- The `outputs` list accumulated by the recurrent loop of `forward`: each
layer consumes the previous layer's (possibly direction-averaged) output, and
every per-layer output is collected for later concatenation. -/
noncomputable def recStack (kind : String) (bidir : Bool) :
    Tensor3 → List (ℕ × RnnLayer) → List Tensor3
  | _, [] => []
  | x, p :: rest => recStep kind bidir x p :: recStack kind bidir (recStep kind bidir x p) rest

/-- The linear loop of `forward` (also used for the attention MLP): apply each
layer in turn, following every layer with `F.tanh`. -/
noncomputable def linStack (ls : List NnLinear) (x : Tensor3) : Tensor3 :=
  ls.foldl (fun acc L => tanh3 (applyLinear L acc)) x

/-- The configuration of `ClopiNet.__init__`.  The Python default
`attention=False` and an explicit empty list are both falsy and are both
encoded by `[]`. -/
structure Config where
  n_features : ℕ
  rnn : String
  recurrent : List ℕ
  bidirectional : Bool
  linear : List ℕ
  weighted : Bool
  internal : Bool
  normalize : Bool
  attention : List ℕ
  return_attention : Bool
  batch_normalization : Bool

/-- A supply of (randomly initialised) parameter values for the constructor:
one `RnnLayer` per recurrent-layer index, weight and bias entries per linear
and attention layer index, and the `alphas_` vector. -/
structure ParamInit where
  recL : ℕ → RnnLayer
  linW : ℕ → ℕ → ℕ → ℝ
  linB : ℕ → ℕ → ℝ
  attW : ℕ → ℕ → ℕ → ℝ
  attB : ℕ → ℕ → ℝ
  alpha : ℕ → ℝ

/-- A constructed `ClopiNet` module: the configuration plus the layer lists
built by `__init__`. -/
structure ClopiNet where
  cfg : Config
  recurrent_layers_ : List RnnLayer
  linear_layers_ : List NnLinear
  attention_layers_ : List NnLinear
  alphas_ : ℕ → ℝ

/-- The chained construction of `nn.Linear` layers: layer `i` maps the
previous hidden dimension (starting from `inDim`) to `dims[i]`. -/
def mkLinearChain (w : ℕ → ℕ → ℕ → ℝ) (b : ℕ → ℕ → ℝ) : ℕ → ℕ → List ℕ → List NnLinear
  | _, _, [] => []
  | i, inDim, d :: rest => ⟨inDim, d, w i, b i⟩ :: mkLinearChain w b (i + 1) d rest

/-- The module built by the non-failing path of `ClopiNet.__init__`:
recurrent layers chained from `n_features`, linear layers chained from
`sum(recurrent)`, and — when attention is configured — attention layers
chained from `n_features` with a final scalar-output layer added if the last
configured attention dimension exceeds 1. -/
def buildModule (cfg : Config) (P : ParamInit) : ClopiNet :=
  { cfg := cfg
    recurrent_layers_ := (List.range cfg.recurrent.length).map P.recL
    linear_layers_ := mkLinearChain P.linW P.linB 0 cfg.recurrent.sum cfg.linear
    attention_layers_ :=
      if cfg.attention = [] then []
      else
        mkLinearChain P.attW P.attB 0 cfg.n_features cfg.attention ++
          (if cfg.attention.getLastD 0 > 1 then
            [⟨cfg.attention.getLastD 0, 1, P.attW cfg.attention.length,
              P.attB cfg.attention.length⟩]
          else [])
    alphas_ := P.alpha }

/-- The failure raised by `ClopiNet.__init__`. -/
inductive InitError where
  | invalidRnn
deriving DecidableEq

/-- Model of `ClopiNet.__init__`: the `ValueError` for an unsupported `rnn`
kind is raised inside the loop over `recurrent`, hence only when that list is
nonempty; otherwise the module is built. -/
def ClopiNet.init (cfg : Config) (P : ParamInit) : Except InitError ClopiNet :=
  if cfg.recurrent ≠ [] ∧ cfg.rnn ≠ "LSTM" ∧ cfg.rnn ≠ "GRU" then
    Except.error InitError.invalidRnn
  else Except.ok (buildModule cfg P)

/-- Model of the `output_dim` property. -/
def ClopiNet.output_dim (M : ClopiNet) : ℕ :=
  M.cfg.linear.getLastD M.cfg.recurrent.sum

/-- The failures that `ClopiNet.forward` can raise: the explicit
`ValueError` on a feature-dimension mismatch, the `RuntimeError` of
`torch.cat` on an empty `outputs` list (empty `recurrent`), and the
`UnboundLocalError` on `attn` when `return_attention` is set without
attention layers. -/
inductive ForwardError where
  | wrongFeatureDim (found expected : ℕ)
  | emptyCat
  | unboundAttn
deriving DecidableEq

/-- The three possible shapes of a successful `forward` result. -/
inductive ForwardOut where
  | seq3 (x : Tensor3)
  | emb (e : Tensor2)
  | embAttn (e : Tensor2) (a : Tensor3)

/-- The embedding component of a `forward` result, when there is one. -/
def ForwardOut.embedding? : ForwardOut → Option Tensor2
  | .seq3 _ => none
  | .emb e => some e
  | .embAttn e _ => some e

/-- The concatenation (along the feature axis) of all recurrent-layer
outputs, lines 170–203 of the code. -/
noncomputable def recPart (M : ClopiNet) (x : Tensor3) : Tensor3 :=
  catAll (recStack M.cfg.rnn M.cfg.bidirectional x (M.cfg.recurrent.zip M.recurrent_layers_))

/-- The output of the linear stack (each layer followed by `F.tanh`),
lines 206–213. -/
noncomputable def linPart (M : ClopiNet) (x : Tensor3) : Tensor3 :=
  linStack M.linear_layers_ (recPart M x)

/-- The optional dimension-wise weighting, lines 217–220. -/
noncomputable def weightPart (M : ClopiNet) (x : Tensor3) : Tensor3 :=
  if M.cfg.weighted then mulAlphas M.alphas_ (linPart M x) else linPart M x

/-- The per-timestep embedding sequence returned in internal mode,
lines 222–227. -/
noncomputable def internalPart (M : ClopiNet) (x : Tensor3) : Tensor3 :=
  if M.cfg.normalize then l2normT3 (weightPart M x) else weightPart M x

/-- The softmaxed attention weights: the attention MLP (each layer followed
by `F.tanh`) applied to the raw input sequence, then `F.softmax` over the
time axis, lines 230–235. -/
noncomputable def attnWeights (M : ClopiNet) (x : Tensor3) : Tensor3 :=
  softmaxTime (linStack M.attention_layers_ x)

/-- The linear-stage output, multiplied by the attention weights when
attention layers exist, lines 229–236. -/
noncomputable def attnPart (M : ClopiNet) (x : Tensor3) : Tensor3 :=
  if M.attention_layers_.isEmpty then weightPart M x
  else mulAttn (weightPart M x) (attnWeights M x)

/-- The temporal pooling `output.sum(dim=0)`, line 239. -/
noncomputable def pooledPart (M : ClopiNet) (x : Tensor3) : Tensor2 :=
  sumTime (attnPart M x)

/-- The optional L2 normalisation of the pooled vectors, lines 243–244. -/
noncomputable def normPart (M : ClopiNet) (x : Tensor3) : Tensor2 :=
  if M.cfg.normalize then l2normRows (pooledPart M x) else pooledPart M x

/-- The optional batch normalisation, lines 248–249. -/
noncomputable def bnPart (M : ClopiNet) (x : Tensor3) : Tensor2 :=
  if M.cfg.batch_normalization then batchNorm (normPart M x) else normPart M x

/-- Model of `ClopiNet.forward`.  Control flow follows the code: the
feature-dimension check comes first; `torch.cat` raises when the recurrent
loop produced no outputs (this happens before the internal-mode return);
internal mode returns the per-timestep sequence; otherwise the pooled
(normalised, batch-normalised) embedding is returned, together with the
attention weights when `return_attention` is set — reading `attn` without
attention layers raises `UnboundLocalError`. -/
noncomputable def ClopiNet.forward (M : ClopiNet) (sequence : Tensor3) :
    Except ForwardError ForwardOut :=
  if sequence.feat ≠ M.cfg.n_features then
    Except.error (ForwardError.wrongFeatureDim sequence.feat M.cfg.n_features)
  else
    match M.cfg.recurrent.zip M.recurrent_layers_ with
    | [] => Except.error ForwardError.emptyCat
    | _ :: _ =>
      if M.cfg.internal then Except.ok (ForwardOut.seq3 (internalPart M sequence))
      else if M.cfg.return_attention then
        if M.attention_layers_.isEmpty then Except.error ForwardError.unboundAttn
        else Except.ok (ForwardOut.embAttn (bnPart M sequence) (attnWeights M sequence))
      else Except.ok (ForwardOut.emb (bnPart M sequence))

/-- All-zero parameters for one recurrent direction. -/
def zeroRnnParams : RnnParams := ⟨fun _ _ => 0, fun _ _ => 0, fun _ => 0, fun _ => 0⟩

/-- All-zero parameters for one recurrent layer. -/
def zeroRnnLayer : RnnLayer := ⟨zeroRnnParams, zeroRnnParams⟩

/-- The all-zero parameter supply. -/
def P0 : ParamInit :=
  ⟨fun _ => zeroRnnLayer, fun _ _ _ => 0, fun _ _ => 0, fun _ _ _ => 0, fun _ _ => 0, fun _ => 0⟩

/-- A parameter supply with zero weights but linear biases equal to 1. -/
def P1 : ParamInit := { P0 with linB := fun _ _ => 1 }

/-- A small valid baseline configuration: `n_features=1`, one LSTM layer of
hidden dimension 1, one linear layer of dimension 1, defaults otherwise. -/
def cfgBase : Config := ⟨1, "LSTM", [1], false, [1], false, false, true, [], false, false⟩

/-- The baseline configuration with `return_attention=True` but no attention
layers (the combination claim C1 asserts to be safe). -/
def cfgRa : Config := { cfgBase with return_attention := true }

/-- The configuration of the worked example of claim C2. -/
def cfgC2 : Config := ⟨4, "LSTM", [8], false, [5], false, false, true, [], false, false⟩

/-- An unsupported recurrent kind together with an empty recurrent list. -/
def cfgBadRnn : Config := { cfgBase with rnn := "RNN", recurrent := ([] : List ℕ) }

/-- The baseline configuration with batch normalisation enabled. -/
def cfgBn : Config := { cfgBase with batch_normalization := true }

/-- The baseline configuration with one attention layer of dimension 1 and
`return_attention=True`. -/
def cfgAtt : Config := { cfgBase with attention := [1], return_attention := true }

/-- The baseline configuration in internal mode (with `return_attention=True`
to exercise the precedence of the internal return). -/
def cfgInt : Config := { cfgBase with internal := true, return_attention := true }

/-- The baseline configuration with all post-pooling normalisations off. -/
def cfgRaw : Config := { cfgBase with normalize := false }

/-- A bidirectional configuration with two stacked GRU layers and no linear
layers. -/
def cfgBi : Config := ⟨1, "GRU", [2, 3], true, ([] : List ℕ), false, false, true, [], false, false⟩

/-- The all-zero module over the baseline configuration. -/
noncomputable def Mz : ClopiNet := buildModule cfgBase P0

/-- A concrete input of shape `(1, 1, 1)` with zero entries. -/
def x0 : Tensor3 := ⟨1, 1, 1, fun _ _ _ => 0⟩

/-- A concrete input of shape `(10, 3, 4)` (the worked example of C2). -/
def xC2 : Tensor3 := ⟨10, 3, 4, fun _ _ _ => 0⟩

/-- A concrete input whose feature dimension 2 mismatches `n_features=1`. -/
def xBad : Tensor3 := ⟨1, 1, 2, fun _ _ _ => 0⟩

/-- A concrete input of shape `(2, 1, 1)` with zero entries. -/
def xT2 : Tensor3 := ⟨2, 1, 1, fun _ _ _ => 0⟩

/-- The all-zero module with `return_attention=True` and no attention. -/
noncomputable def MRa : ClopiNet := buildModule cfgRa P0

/-- The all-zero module over the C2 example configuration. -/
noncomputable def MC2 : ClopiNet := buildModule cfgC2 P0

/-- The bias-1 module with batch normalisation enabled. -/
noncomputable def MBn : ClopiNet := buildModule cfgBn P1

/-- The bias-1 module over the baseline configuration. -/
noncomputable def MN1 : ClopiNet := buildModule cfgBase P1

/-- The all-zero module with attention configured and returned. -/
noncomputable def MAtt : ClopiNet := buildModule cfgAtt P0

/-- The all-zero module in internal mode. -/
noncomputable def MInt : ClopiNet := buildModule cfgInt P0

/-- The all-zero module with normalisation disabled. -/
noncomputable def MRaw : ClopiNet := buildModule cfgRaw P0

/-- The all-zero bidirectional module. -/
noncomputable def MBi : ClopiNet := buildModule cfgBi P0

/-- An unsupported recurrent kind with a nonempty recurrent list. -/
def cfgBad2 : Config := { cfgBase with rnn := "RNN" }

/-- An internal-mode configuration with an empty recurrent list. -/
def cfgIntE : Config := { cfgBase with internal := true, recurrent := ([] : List ℕ) }

/-- The all-zero module over `cfgIntE`. -/
noncomputable def MIntE : ClopiNet := buildModule cfgIntE P0

/-- Whether a `forward` result is a success. -/
def isOk (r : Except ForwardError ForwardOut) : Bool :=
  match r with
  | Except.ok _ => true
  | Except.error _ => false

/-! Shape lemmas for the tensor operations. -/

@[simp] theorem catFeat_time (x y : Tensor3) : (catFeat x y).time = x.time := rfl

@[simp] theorem catFeat_batch (x y : Tensor3) : (catFeat x y).batch = x.batch := rfl

@[simp] theorem catFeat_feat (x y : Tensor3) : (catFeat x y).feat = x.feat + y.feat := rfl

@[simp] theorem tanh3_time (x : Tensor3) : (tanh3 x).time = x.time := rfl

@[simp] theorem tanh3_batch (x : Tensor3) : (tanh3 x).batch = x.batch := rfl

@[simp] theorem tanh3_feat (x : Tensor3) : (tanh3 x).feat = x.feat := rfl

@[simp] theorem applyLinear_time (L : NnLinear) (x : Tensor3) :
    (applyLinear L x).time = x.time := rfl

@[simp] theorem applyLinear_batch (L : NnLinear) (x : Tensor3) :
    (applyLinear L x).batch = x.batch := rfl

@[simp] theorem applyLinear_feat (L : NnLinear) (x : Tensor3) :
    (applyLinear L x).feat = L.outDim := rfl

@[simp] theorem mulAlphas_time (a : ℕ → ℝ) (x : Tensor3) : (mulAlphas a x).time = x.time := rfl

@[simp] theorem mulAlphas_batch (a : ℕ → ℝ) (x : Tensor3) : (mulAlphas a x).batch = x.batch := rfl

@[simp] theorem mulAlphas_feat (a : ℕ → ℝ) (x : Tensor3) : (mulAlphas a x).feat = x.feat := rfl

@[simp] theorem mulAttn_time (x a : Tensor3) : (mulAttn x a).time = x.time := rfl

@[simp] theorem mulAttn_batch (x a : Tensor3) : (mulAttn x a).batch = x.batch := rfl

@[simp] theorem mulAttn_feat (x a : Tensor3) : (mulAttn x a).feat = x.feat := rfl

@[simp] theorem add3_time (x y : Tensor3) : (add3 x y).time = x.time := rfl

@[simp] theorem add3_batch (x y : Tensor3) : (add3 x y).batch = x.batch := rfl

@[simp] theorem add3_feat (x y : Tensor3) : (add3 x y).feat = x.feat := rfl

@[simp] theorem scale3_time (c : ℝ) (x : Tensor3) : (scale3 c x).time = x.time := rfl

@[simp] theorem scale3_batch (c : ℝ) (x : Tensor3) : (scale3 c x).batch = x.batch := rfl

@[simp] theorem scale3_feat (c : ℝ) (x : Tensor3) : (scale3 c x).feat = x.feat := rfl

@[simp] theorem sliceTo_time (x : Tensor3) (len : ℕ) : (sliceTo x len).time = x.time := rfl

@[simp] theorem sliceTo_batch (x : Tensor3) (len : ℕ) : (sliceTo x len).batch = x.batch := rfl

@[simp] theorem sliceTo_feat (x : Tensor3) (len : ℕ) : (sliceTo x len).feat = len := rfl

@[simp] theorem sliceFrom_time (x : Tensor3) (lo : ℕ) : (sliceFrom x lo).time = x.time := rfl

@[simp] theorem sliceFrom_batch (x : Tensor3) (lo : ℕ) : (sliceFrom x lo).batch = x.batch := rfl

@[simp] theorem sliceFrom_feat (x : Tensor3) (lo : ℕ) : (sliceFrom x lo).feat = x.feat - lo := rfl

@[simp] theorem revTime_time (x : Tensor3) : (revTime x).time = x.time := rfl

@[simp] theorem revTime_batch (x : Tensor3) : (revTime x).batch = x.batch := rfl

@[simp] theorem revTime_feat (x : Tensor3) : (revTime x).feat = x.feat := rfl

@[simp] theorem softmaxTime_time (x : Tensor3) : (softmaxTime x).time = x.time := rfl

@[simp] theorem softmaxTime_batch (x : Tensor3) : (softmaxTime x).batch = x.batch := rfl

@[simp] theorem softmaxTime_feat (x : Tensor3) : (softmaxTime x).feat = x.feat := rfl

@[simp] theorem sumTime_batch (x : Tensor3) : (sumTime x).batch = x.batch := rfl

@[simp] theorem sumTime_feat (x : Tensor3) : (sumTime x).feat = x.feat := rfl

@[simp] theorem l2normRows_batch (e : Tensor2) : (l2normRows e).batch = e.batch := rfl

@[simp] theorem l2normRows_feat (e : Tensor2) : (l2normRows e).feat = e.feat := rfl

@[simp] theorem l2normT3_time (x : Tensor3) : (l2normT3 x).time = x.time := rfl

@[simp] theorem l2normT3_batch (x : Tensor3) : (l2normT3 x).batch = x.batch := rfl

@[simp] theorem l2normT3_feat (x : Tensor3) : (l2normT3 x).feat = x.feat := rfl

@[simp] theorem batchNorm_batch (e : Tensor2) : (batchNorm e).batch = e.batch := rfl

@[simp] theorem batchNorm_feat (e : Tensor2) : (batchNorm e).feat = e.feat := rfl

@[simp] theorem runDir_time (kind : String) (p : RnnParams) (hdim : ℕ) (x : Tensor3) :
    (runDir kind p hdim x).time = x.time := rfl

@[simp] theorem runDir_batch (kind : String) (p : RnnParams) (hdim : ℕ) (x : Tensor3) :
    (runDir kind p hdim x).batch = x.batch := rfl

@[simp] theorem runDir_feat (kind : String) (p : RnnParams) (hdim : ℕ) (x : Tensor3) :
    (runDir kind p hdim x).feat = hdim := rfl

@[simp] theorem runRnnLayer_time (kind : String) (bidir : Bool) (L : RnnLayer) (hdim : ℕ)
    (x : Tensor3) : (runRnnLayer kind bidir L hdim x).time = x.time := by
  cases bidir <;> simp [runRnnLayer]

@[simp] theorem runRnnLayer_batch (kind : String) (bidir : Bool) (L : RnnLayer) (hdim : ℕ)
    (x : Tensor3) : (runRnnLayer kind bidir L hdim x).batch = x.batch := by
  cases bidir <;> simp [runRnnLayer]

theorem runRnnLayer_feat (kind : String) (bidir : Bool) (L : RnnLayer) (hdim : ℕ)
    (x : Tensor3) :
    (runRnnLayer kind bidir L hdim x).feat = if bidir then hdim + hdim else hdim := by
  cases bidir <;> simp [runRnnLayer]

@[simp] theorem recStep_time (kind : String) (bidir : Bool) (x : Tensor3) (p : ℕ × RnnLayer) :
    (recStep kind bidir x p).time = x.time := by
  cases bidir <;> simp [recStep]

@[simp] theorem recStep_batch (kind : String) (bidir : Bool) (x : Tensor3) (p : ℕ × RnnLayer) :
    (recStep kind bidir x p).batch = x.batch := by
  cases bidir <;> simp [recStep]

@[simp] theorem recStep_feat (kind : String) (bidir : Bool) (x : Tensor3) (p : ℕ × RnnLayer) :
    (recStep kind bidir x p).feat = p.1 := by
  cases bidir <;> simp [recStep, runRnnLayer_feat]

theorem recStack_map_feat (kind : String) (bidir : Bool) :
    ∀ (pairs : List (ℕ × RnnLayer)) (x : Tensor3),
      (recStack kind bidir x pairs).map Tensor3.feat = pairs.map Prod.fst
  | [], _ => rfl
  | p :: rest, x => by
    simp [recStack, recStack_map_feat kind bidir rest]

theorem recStack_time_batch (kind : String) (bidir : Bool) :
    ∀ (pairs : List (ℕ × RnnLayer)) (x : Tensor3),
      ∀ o ∈ recStack kind bidir x pairs, o.time = x.time ∧ o.batch = x.batch
  | [], _, o, ho => by simp [recStack] at ho
  | p :: rest, x, o, ho => by
    simp only [recStack, List.mem_cons] at ho
    rcases ho with rfl | ho
    · simp
    · have := recStack_time_batch kind bidir rest (recStep kind bidir x p) o ho
      simpa using this

theorem foldl_catFeat_time :
    ∀ (l : List Tensor3) (a : Tensor3), (l.foldl catFeat a).time = a.time
  | [], _ => rfl
  | x :: l, a => by
    simpa [List.foldl] using foldl_catFeat_time l (catFeat a x)

theorem foldl_catFeat_batch :
    ∀ (l : List Tensor3) (a : Tensor3), (l.foldl catFeat a).batch = a.batch
  | [], _ => rfl
  | x :: l, a => by
    simpa [List.foldl] using foldl_catFeat_batch l (catFeat a x)

theorem foldl_catFeat_feat :
    ∀ (l : List Tensor3) (a : Tensor3),
      (l.foldl catFeat a).feat = a.feat + (l.map Tensor3.feat).sum
  | [], _ => by simp
  | x :: l, a => by
    simp [List.foldl, foldl_catFeat_feat l (catFeat a x), add_assoc]

theorem catAll_feat : ∀ l : List Tensor3, (catAll l).feat = (l.map Tensor3.feat).sum
  | [] => rfl
  | a :: l => by simp [catAll, foldl_catFeat_feat]

theorem catAll_cons_time (a : Tensor3) (l : List Tensor3) :
    (catAll (a :: l)).time = a.time := foldl_catFeat_time l a

theorem catAll_cons_batch (a : Tensor3) (l : List Tensor3) :
    (catAll (a :: l)).batch = a.batch := foldl_catFeat_batch l a

theorem linStack_time : ∀ (ls : List NnLinear) (x : Tensor3), (linStack ls x).time = x.time
  | [], _ => rfl
  | L :: ls, x => by
    simpa [linStack, List.foldl] using linStack_time ls (tanh3 (applyLinear L x))

theorem linStack_batch : ∀ (ls : List NnLinear) (x : Tensor3), (linStack ls x).batch = x.batch
  | [], _ => rfl
  | L :: ls, x => by
    simpa [linStack, List.foldl] using linStack_batch ls (tanh3 (applyLinear L x))

theorem linStack_feat : ∀ (ls : List NnLinear) (x : Tensor3),
    (linStack ls x).feat = (ls.map NnLinear.outDim).getLastD x.feat
  | [], _ => rfl
  | L :: ls, x => by
    rw [List.map_cons, List.getLastD_cons]
    simpa [linStack, List.foldl] using linStack_feat ls (tanh3 (applyLinear L x))

/-! Facts about the constructor. -/

@[simp] theorem buildModule_cfg (cfg : Config) (P : ParamInit) : (buildModule cfg P).cfg = cfg :=
  rfl

@[simp] theorem buildModule_rec_length (cfg : Config) (P : ParamInit) :
    (buildModule cfg P).recurrent_layers_.length = cfg.recurrent.length := by
  simp [buildModule]

theorem mkLinearChain_map_outDim (w : ℕ → ℕ → ℕ → ℝ) (b : ℕ → ℕ → ℝ) :
    ∀ (i inDim : ℕ) (dims : List ℕ),
      (mkLinearChain w b i inDim dims).map NnLinear.outDim = dims
  | _, _, [] => rfl
  | i, inDim, d :: rest => by
    simp [mkLinearChain, mkLinearChain_map_outDim w b (i + 1) d rest]

theorem buildModule_lin_outDims (cfg : Config) (P : ParamInit) :
    (buildModule cfg P).linear_layers_.map NnLinear.outDim = cfg.linear := by
  simp [buildModule, mkLinearChain_map_outDim]

theorem buildModule_att_isEmpty (cfg : Config) (P : ParamInit) :
    (buildModule cfg P).attention_layers_.isEmpty = cfg.attention.isEmpty := by
  rcases h : cfg.attention with _ | ⟨d, rest⟩ <;>
    simp [buildModule, h, mkLinearChain]

theorem zip_rec_map_fst (cfg : Config) (P : ParamInit) :
    (cfg.recurrent.zip (buildModule cfg P).recurrent_layers_).map Prod.fst = cfg.recurrent := by
  apply List.map_fst_zip
  simp [buildModule]

theorem zip_rec_ne_nil (cfg : Config) (P : ParamInit) (h : cfg.recurrent ≠ []) :
    cfg.recurrent.zip (buildModule cfg P).recurrent_layers_ ≠ [] := by
  intro hz
  have hlen := congrArg List.length hz
  simp [buildModule] at hlen
  exact h hlen

theorem init_ok (cfg : Config) (P : ParamInit) (M : ClopiNet)
    (h : ClopiNet.init cfg P = Except.ok M) : M = buildModule cfg P := by
  rw [ClopiNet.init] at h
  split at h
  · cases h
  · cases h; rfl

/-! Inversion lemmas for `forward`. -/

theorem forward_ok_feat (M : ClopiNet) (x : Tensor3) (r : ForwardOut)
    (h : M.forward x = Except.ok r) : x.feat = M.cfg.n_features := by
  by_contra hne
  rw [ClopiNet.forward, if_pos hne] at h
  cases h

theorem forward_ok_zip (M : ClopiNet) (x : Tensor3) (r : ForwardOut)
    (h : M.forward x = Except.ok r) : M.cfg.recurrent.zip M.recurrent_layers_ ≠ [] := by
  intro hz
  rw [ClopiNet.forward] at h
  split at h
  · cases h
  · rw [hz] at *
    split at h <;> simp_all

theorem forward_ok_cases (M : ClopiNet) (x : Tensor3) (r : ForwardOut)
    (h : M.forward x = Except.ok r) :
    (M.cfg.internal = true ∧ r = ForwardOut.seq3 (internalPart M x)) ∨
    (M.cfg.internal = false ∧ M.cfg.return_attention = true ∧
      M.attention_layers_.isEmpty = false ∧
      r = ForwardOut.embAttn (bnPart M x) (attnWeights M x)) ∨
    (M.cfg.internal = false ∧ M.cfg.return_attention = false ∧
      r = ForwardOut.emb (bnPart M x)) := by
  rw [ClopiNet.forward] at h
  split at h
  · cases h
  · split at h
    · cases h
    · cases hI : M.cfg.internal with
      | true =>
        rw [if_pos hI] at h
        cases h
        exact Or.inl ⟨rfl, rfl⟩
      | false =>
        rw [if_neg (by simp [hI])] at h
        cases hR : M.cfg.return_attention with
        | true =>
          rw [if_pos hR] at h
          cases hA : M.attention_layers_.isEmpty with
          | true => rw [if_pos hA] at h; cases h
          | false =>
            rw [if_neg (by simp [hA])] at h
            cases h
            exact Or.inr (Or.inl ⟨rfl, rfl, rfl, rfl⟩)
        | false =>
          rw [if_neg (by simp [hR])] at h
          cases h
          exact Or.inr (Or.inr ⟨rfl, rfl, rfl⟩)

theorem forward_embedding (M : ClopiNet) (x : Tensor3) (r : ForwardOut) (e : Tensor2)
    (h : M.forward x = Except.ok r) (he : r.embedding? = some e) : e = bnPart M x := by
  rcases forward_ok_cases M x r h with ⟨_, rfl⟩ | ⟨_, _, _, rfl⟩ | ⟨_, _, rfl⟩ <;>
    simp [ForwardOut.embedding?] at he <;> exact he.symm

/-! Shape lemmas for the stages of `forward`. -/

theorem recPart_feat (M : ClopiNet) (x : Tensor3) :
    (recPart M x).feat = ((M.cfg.recurrent.zip M.recurrent_layers_).map Prod.fst).sum := by
  rw [recPart, catAll_feat, recStack_map_feat]

theorem recPart_time (M : ClopiNet) (x : Tensor3)
    (hz : M.cfg.recurrent.zip M.recurrent_layers_ ≠ []) : (recPart M x).time = x.time := by
  rw [recPart]
  rcases hzz : M.cfg.recurrent.zip M.recurrent_layers_ with _ | ⟨p, rest⟩
  · exact absurd hzz hz
  · simp [recStack, catAll_cons_time]

theorem recPart_batch (M : ClopiNet) (x : Tensor3)
    (hz : M.cfg.recurrent.zip M.recurrent_layers_ ≠ []) : (recPart M x).batch = x.batch := by
  rw [recPart]
  rcases hzz : M.cfg.recurrent.zip M.recurrent_layers_ with _ | ⟨p, rest⟩
  · exact absurd hzz hz
  · simp [recStack, catAll_cons_batch]

theorem weightPart_time (M : ClopiNet) (x : Tensor3) :
    (weightPart M x).time = (recPart M x).time := by
  unfold weightPart
  split <;> simp [linPart, linStack_time]

theorem weightPart_batch (M : ClopiNet) (x : Tensor3) :
    (weightPart M x).batch = (recPart M x).batch := by
  unfold weightPart
  split <;> simp [linPart, linStack_batch]

theorem weightPart_feat (M : ClopiNet) (x : Tensor3) :
    (weightPart M x).feat = (M.linear_layers_.map NnLinear.outDim).getLastD (recPart M x).feat := by
  unfold weightPart
  split <;> simp [linPart, linStack_feat]

theorem attnPart_time (M : ClopiNet) (x : Tensor3) :
    (attnPart M x).time = (recPart M x).time := by
  unfold attnPart
  split <;> simp [weightPart_time]

theorem attnPart_batch (M : ClopiNet) (x : Tensor3) :
    (attnPart M x).batch = (recPart M x).batch := by
  unfold attnPart
  split <;> simp [weightPart_batch]

theorem attnPart_feat (M : ClopiNet) (x : Tensor3) :
    (attnPart M x).feat = (weightPart M x).feat := by
  unfold attnPart
  split <;> simp

theorem bnPart_batch (M : ClopiNet) (x : Tensor3) :
    (bnPart M x).batch = (recPart M x).batch := by
  unfold bnPart normPart pooledPart
  split <;> split <;> simp [attnPart_batch]

theorem bnPart_feat (M : ClopiNet) (x : Tensor3) :
    (bnPart M x).feat = (weightPart M x).feat := by
  unfold bnPart normPart pooledPart
  split <;> split <;> simp [attnPart_feat]

theorem internalPart_time (M : ClopiNet) (x : Tensor3) :
    (internalPart M x).time = (recPart M x).time := by
  unfold internalPart
  split <;> simp [weightPart_time]

theorem internalPart_batch (M : ClopiNet) (x : Tensor3) :
    (internalPart M x).batch = (recPart M x).batch := by
  unfold internalPart
  split <;> simp [weightPart_batch]

theorem internalPart_feat (M : ClopiNet) (x : Tensor3) :
    (internalPart M x).feat = (weightPart M x).feat := by
  unfold internalPart
  split <;> simp

theorem built_weightPart_feat (cfg : Config) (P : ParamInit) (x : Tensor3) :
    (weightPart (buildModule cfg P) x).feat = (buildModule cfg P).output_dim := by
  rw [weightPart_feat, buildModule_lin_outDims, recPart_feat, buildModule_cfg,
    zip_rec_map_fst]
  rfl

/-! Claim C3: the feature-dimension check. -/

/-- C3: `forward` fails with the dimension-mismatch error (reporting the found
and expected dimensions) if and only if the input's feature dimension differs
from the `n_features` fixed at construction.  The check is the first step of
`forward`, before any computation, and on this error no output is produced. -/
theorem c3_dim_mismatch_iff (M : ClopiNet) (x : Tensor3) :
    M.forward x = Except.error (ForwardError.wrongFeatureDim x.feat M.cfg.n_features) ↔
      x.feat ≠ M.cfg.n_features := by
  constructor
  · intro h he
    rw [ClopiNet.forward, if_neg (not_not_intro he)] at h
    split at h
    · simp at h
    · split at h
      · simp at h
      · split at h
        · split at h <;> simp at h
        · simp at h
  · intro h
    rw [ClopiNet.forward, if_pos h]

/-- C3 witness: a mismatched input (feature dimension 2 against
`n_features=1`) triggers exactly the dimension-mismatch error, and a matching
input does not produce that error. -/
theorem c3_witness :
    ClopiNet.forward Mz xBad = Except.error (ForwardError.wrongFeatureDim 2 1) ∧
      ClopiNet.forward Mz x0 ≠
        Except.error (ForwardError.wrongFeatureDim x0.feat Mz.cfg.n_features) :=
  ⟨(c3_dim_mismatch_iff Mz xBad).mpr (by decide),
   fun h => absurd ((c3_dim_mismatch_iff Mz x0).mp h) (by decide)⟩

/-! Claim C4: validation of the recurrent kind at construction. -/

/-- C4 counterexample: with an empty recurrent list, construction succeeds
although the recurrent kind "RNN" is unsupported — the claim "for every
configuration whose rnn kind is neither LSTM nor GRU (including the empty
recurrent list) construction fails" is false on the code. -/
theorem c4_counterexample :
    cfgBadRnn.rnn ≠ "LSTM" ∧ cfgBadRnn.rnn ≠ "GRU" ∧ cfgBadRnn.recurrent = [] ∧
      ClopiNet.init cfgBadRnn P0 = Except.ok (buildModule cfgBadRnn P0) :=
  ⟨by decide, by decide, rfl, rfl⟩

/-- C4 amended: construction fails with the invalid-configuration error
exactly when the recurrent list is nonempty and the kind is neither "LSTM"
nor "GRU" (the check sits inside the loop over `recurrent`, so it is skipped
for an empty list); for "LSTM" or "GRU" construction always succeeds. -/
theorem c4_init_fails_iff (cfg : Config) (P : ParamInit) :
    (ClopiNet.init cfg P = Except.error InitError.invalidRnn ↔
      cfg.recurrent ≠ [] ∧ cfg.rnn ≠ "LSTM" ∧ cfg.rnn ≠ "GRU") ∧
    (cfg.rnn = "LSTM" ∨ cfg.rnn = "GRU" →
      ClopiNet.init cfg P = Except.ok (buildModule cfg P)) := by
  constructor
  · constructor
    · intro h
      by_contra hc
      rw [ClopiNet.init, if_neg hc] at h
      cases h
    · intro hc
      rw [ClopiNet.init, if_pos hc]
  · intro hv
    rw [ClopiNet.init, if_neg]
    rintro ⟨-, hL, hG⟩
    rcases hv with hv | hv
    · exact hL hv
    · exact hG hv

/-- C4 witness: the kind "RNN" with one recurrent layer is rejected, while
the baseline "LSTM" configuration is accepted. -/
theorem c4_witness :
    ClopiNet.init cfgBad2 P0 = Except.error InitError.invalidRnn ∧
      ClopiNet.init cfgBase P0 = Except.ok (buildModule cfgBase P0) :=
  ⟨(c4_init_fails_iff cfgBad2 P0).1.mpr ⟨by decide, by decide, by decide⟩,
   (c4_init_fails_iff cfgBase P0).2 (Or.inl rfl)⟩

/-! Claim C1: the set of failure conditions. -/

/-- C1 counterexample: `return_attention=True` with `attention=False` passes
construction, yet calling `forward` with a matching feature dimension fails —
reading the never-assigned `attn` at the final return raises — so this
configuration is a third user-visible failure condition, contradicting the
claim that it cannot fail. -/
theorem c1_counterexample :
    ClopiNet.init cfgRa P0 = Except.ok MRa ∧ x0.feat = cfgRa.n_features ∧
      ClopiNet.forward MRa x0 = Except.error ForwardError.unboundAttn :=
  ⟨rfl, rfl, rfl⟩

/-- C1 amended: besides the two documented failure conditions there are two
further call-time failures — `torch.cat` on the empty outputs list when
`recurrent` is empty, and the unbound `attn` when `return_attention` is set
without attention layers.  Outside these, construction followed by a call
with matching `n_features` succeeds. -/
theorem c1_forward_ok (cfg : Config) (P : ParamInit) (M : ClopiNet) (x : Tensor3)
    (hinit : ClopiNet.init cfg P = Except.ok M)
    (hrec : cfg.recurrent ≠ [])
    (hatt : cfg.return_attention = true → cfg.attention ≠ [])
    (hx : x.feat = cfg.n_features) :
    ∃ r, ClopiNet.forward M x = Except.ok r := by
  have hM := init_ok cfg P M hinit
  subst hM
  have hz := zip_rec_ne_nil cfg P hrec
  rcases hzz : cfg.recurrent.zip (buildModule cfg P).recurrent_layers_ with _ | ⟨p, rest⟩
  · exact absurd hzz hz
  rw [ClopiNet.forward]
  simp only [buildModule_cfg]
  rw [if_neg (not_not_intro hx), hzz]
  by_cases hI : cfg.internal = true
  · rw [if_pos hI]
    exact ⟨_, rfl⟩
  · rw [if_neg hI]
    by_cases hR : cfg.return_attention = true
    · have hA : (buildModule cfg P).attention_layers_.isEmpty = false := by
        rw [buildModule_att_isEmpty]
        exact List.isEmpty_eq_false.mpr (hatt hR)
      rw [if_pos hR, hA]
      exact ⟨_, rfl⟩
    · rw [if_neg hR]
      exact ⟨_, rfl⟩

/-- C1 witness: the baseline configuration constructs and its call on a
matching input succeeds. -/
theorem c1_witness : isOk (ClopiNet.forward (buildModule cfgBase P0) x0) = true := by
  obtain ⟨r, hr⟩ := c1_forward_ok cfgBase P0 (buildModule cfgBase P0) x0 rfl (by decide)
    (fun h => absurd h (by decide)) rfl
  rw [hr]
  rfl

/-! Claim C2: shape of the returned embedding. -/

/-- C2: whenever `forward` on a constructed module returns an embedding, it
has shape `(batch, output_dim)`, where `output_dim` is the last linear hidden
dimension, or the sum of the recurrent hidden dimensions when the linear list
is empty. -/
theorem c2_output_shape (cfg : Config) (P : ParamInit) (M : ClopiNet) (x : Tensor3)
    (r : ForwardOut) (e : Tensor2)
    (hinit : ClopiNet.init cfg P = Except.ok M)
    (hfwd : ClopiNet.forward M x = Except.ok r)
    (he : r.embedding? = some e) :
    e.batch = x.batch ∧ e.feat = M.output_dim := by
  have hM := init_ok cfg P M hinit
  subst hM
  have hz := forward_ok_zip _ _ _ hfwd
  have he2 := forward_embedding _ _ _ _ hfwd he
  subst he2
  constructor
  · rw [bnPart_batch, recPart_batch _ _ hz]
  · rw [bnPart_feat, built_weightPart_feat]

/-- C2 witness: the worked example — `n_features=4`, `recurrent=[8]`,
`linear=[5]`, input of shape `(10, 3, 4)` — yields an embedding of shape
`(3, 5)`. -/
theorem c2_witness : (bnPart MC2 xC2).batch = 3 ∧ (bnPart MC2 xC2).feat = 5 :=
  c2_output_shape cfgC2 P0 MC2 xC2 (ForwardOut.emb (bnPart MC2 xC2)) (bnPart MC2 xC2)
    rfl rfl rfl

/-! Claim C7: internal mode. -/

/-- C7 counterexample: with `internal=True` but an empty recurrent list,
`forward` on a matching input does not return a per-timestep tensor — it
fails with the `torch.cat` error (raised before the internal-mode return), so
the claim fails for that configuration. -/
theorem c7_counterexample :
    ClopiNet.init cfgIntE P0 = Except.ok MIntE ∧ cfgIntE.internal = true ∧
      x0.feat = cfgIntE.n_features ∧
      ClopiNet.forward MIntE x0 = Except.error ForwardError.emptyCat :=
  ⟨rfl, rfl, rfl, rfl⟩

/-- C7 amended: with `internal=True` and a nonempty recurrent list, `forward` on a
matching input returns a single per-timestep tensor — never a tuple, even
when `return_attention=True` — of shape `(time, batch, output_dim)`; it is
the weighting-stage output, per-timestep L2-normalised exactly when
`normalize=True`, so attention, pooling and batch normalisation are never
applied. -/
theorem c7_internal_mode (cfg : Config) (P : ParamInit) (M : ClopiNet) (x : Tensor3)
    (hinit : ClopiNet.init cfg P = Except.ok M)
    (hint : cfg.internal = true)
    (hrec : cfg.recurrent ≠ [])
    (hx : x.feat = cfg.n_features) :
    ClopiNet.forward M x = Except.ok (ForwardOut.seq3 (internalPart M x)) ∧
      (internalPart M x).time = x.time ∧
      (internalPart M x).batch = x.batch ∧
      (internalPart M x).feat = M.output_dim ∧
      (cfg.normalize = true → internalPart M x = l2normT3 (weightPart M x)) ∧
      (cfg.normalize = false → internalPart M x = weightPart M x) := by
  have hM := init_ok cfg P M hinit
  subst hM
  have hz := zip_rec_ne_nil cfg P hrec
  refine ⟨?_, ?_, ?_, ?_, ?_, ?_⟩
  · rcases hzz : cfg.recurrent.zip (buildModule cfg P).recurrent_layers_ with _ | ⟨p, rest⟩
    · exact absurd hzz hz
    rw [ClopiNet.forward]
    simp only [buildModule_cfg]
    rw [if_neg (not_not_intro hx), hzz, if_pos hint]
  · rw [internalPart_time, recPart_time _ _ hz]
  · rw [internalPart_batch, recPart_batch _ _ hz]
  · rw [internalPart_feat, built_weightPart_feat]
  · intro hn
    rw [internalPart]
    simp only [buildModule_cfg]
    rw [if_pos hn]
  · intro hn
    rw [internalPart]
    simp only [buildModule_cfg]
    rw [if_neg (by simp [hn])]

/-- C7 witness: the internal-mode module (with `return_attention=True`)
returns the per-timestep tensor of shape `(1, 1, 1)` on the matching
input. -/
theorem c7_witness :
    ClopiNet.forward MInt x0 = Except.ok (ForwardOut.seq3 (internalPart MInt x0)) ∧
      (internalPart MInt x0).time = 1 ∧ (internalPart MInt x0).batch = 1 ∧
      (internalPart MInt x0).feat = 1 := by
  obtain ⟨h1, h2, h3, h4, -, -⟩ := c7_internal_mode cfgInt P0 MInt x0 rfl rfl (by decide) rfl
  exact ⟨h1, h2, h3, h4⟩

/-! Claim C8: pooling is a sum over time, not an average. -/

/-- C8: for every constructed module (with a nonempty recurrent list, so the
stages are defined over the input's time axis) and every input, each entry of
the pooled vector is exactly the elementwise sum over the time axis — not the
average — of the (attention-weighted, if configured) linear-stage output:
`pooled[b, d] = Σ_t output[t, b, d]`. -/
theorem c8_sum_pooling (cfg : Config) (P : ParamInit) (M : ClopiNet) (x : Tensor3)
    (hinit : ClopiNet.init cfg P = Except.ok M)
    (hrec : cfg.recurrent ≠ []) :
    ∀ b d, (pooledPart M x).entry b d =
      ∑ t ∈ Finset.range x.time, (attnPart M x).entry t b d := by
  have hM := init_ok cfg P M hinit
  subst hM
  have hz := zip_rec_ne_nil cfg P hrec
  intro b d
  have ht : (attnPart (buildModule cfg P) x).time = x.time := by
    rw [attnPart_time, recPart_time _ _ hz]
  show (∑ t ∈ Finset.range (attnPart (buildModule cfg P) x).time,
      (attnPart (buildModule cfg P) x).entry t b d) = _
  rw [ht]

/-- C8 witness: on the no-normalisation module with a two-timestep input, the
pooled entry equals the sum over the time axis of the weighted output. -/
theorem c8_witness :
    (pooledPart MRaw xT2).entry 0 0 =
      ∑ t ∈ Finset.range xT2.time, (attnPart MRaw xT2).entry t 0 0 :=
  c8_sum_pooling cfgRaw P0 MRaw xT2 rfl (by decide) 0 0

/-! Claim C9: bidirectional averaging. -/

/-- C9: in a bidirectional configuration, each iteration of the recurrent
loop averages the forward and backward halves of the raw layer output (whose
feature dimension is twice the hidden dimension) elementwise with weight 0.5,
so every collected per-layer output has feature dimension equal to its
configured hidden dimension, and the concatenated recurrent output has
feature dimension equal to the sum of the recurrent hidden dimensions in
configuration order. -/
theorem c9_bidirectional (cfg : Config) (P : ParamInit) (M : ClopiNet) (x : Tensor3)
    (hinit : ClopiNet.init cfg P = Except.ok M)
    (hb : cfg.bidirectional = true) :
    (∀ (y : Tensor3) (p : ℕ × RnnLayer) (t b d : ℕ),
      (recStep cfg.rnn cfg.bidirectional y p).entry t b d =
        1 / 2 * ((runRnnLayer cfg.rnn cfg.bidirectional p.2 p.1 y).entry t b d +
          (runRnnLayer cfg.rnn cfg.bidirectional p.2 p.1 y).entry t b (p.1 + d)) ∧
      (recStep cfg.rnn cfg.bidirectional y p).feat = p.1 ∧
      (runRnnLayer cfg.rnn cfg.bidirectional p.2 p.1 y).feat = p.1 + p.1) ∧
    ((recStack cfg.rnn cfg.bidirectional x (cfg.recurrent.zip M.recurrent_layers_)).map
        Tensor3.feat = cfg.recurrent) ∧
    (recPart M x).feat = cfg.recurrent.sum := by
  have hM := init_ok cfg P M hinit
  subst hM
  refine ⟨?_, ?_, ?_⟩
  · intro y p t b d
    rw [hb]
    refine ⟨?_, recStep_feat _ _ _ _, by rw [runRnnLayer_feat, if_pos rfl]⟩
    show (1:ℝ) / 2 * (_ + _) = _
    rfl
  · rw [recStack_map_feat, zip_rec_map_fst]
  · rw [recPart_feat, buildModule_cfg, zip_rec_map_fst]

/-- C9 witness: the bidirectional two-layer GRU module has per-layer output
dimensions `[2, 3]` and concatenated recurrent dimension `5`. -/
theorem c9_witness :
    ((recStack cfgBi.rnn cfgBi.bidirectional x0 (cfgBi.recurrent.zip MBi.recurrent_layers_)).map
        Tensor3.feat = [2, 3]) ∧ (recPart MBi x0).feat = 5 := by
  obtain ⟨-, h2, h3⟩ := c9_bidirectional cfgBi P0 MBi x0 rfl rfl
  exact ⟨h2, h3⟩

/-! Claim C6: the attention weights and the softmax property. -/

/-- C6: the attention weights returned by `forward` are the softmax over the
time axis of the attention MLP (every attention layer followed by tanh)
applied to the raw input sequence — not to recurrent or linear outputs — and
for a nonempty time axis they sum to 1 over time for every batch element. -/
theorem c6_attention_softmax (M : ClopiNet) (x : Tensor3) (e : Tensor2) (a : Tensor3)
    (hfwd : ClopiNet.forward M x = Except.ok (ForwardOut.embAttn e a))
    (ht : 0 < x.time) :
    a = softmaxTime (linStack M.attention_layers_ x) ∧
      ∀ b f, (∑ t ∈ Finset.range a.time, a.entry t b f) = 1 := by
  rcases forward_ok_cases M x _ hfwd with ⟨-, h⟩ | ⟨-, -, -, h⟩ | ⟨-, -, h⟩
  · cases h
  · injection h with h1 h2
    subst h1
    subst h2
    refine ⟨rfl, ?_⟩
    intro b f
    have hS : (0:ℝ) < ∑ s ∈ Finset.range (linStack M.attention_layers_ x).time,
        Real.exp ((linStack M.attention_layers_ x).entry s b f) := by
      apply Finset.sum_pos (fun i _ => Real.exp_pos _)
      rw [linStack_time]
      exact Finset.nonempty_range_iff.mpr (Nat.pos_iff_ne_zero.mp ht)
    show (∑ t ∈ Finset.range (linStack M.attention_layers_ x).time,
        Real.exp ((linStack M.attention_layers_ x).entry t b f) /
          ∑ s ∈ Finset.range (linStack M.attention_layers_ x).time,
            Real.exp ((linStack M.attention_layers_ x).entry s b f)) = 1
    rw [← Finset.sum_div, div_self (ne_of_gt hS)]
  · cases h

/-- C6 witness: on the attention-carrying module with a two-timestep input,
the returned attention weights sum to 1 over the time axis. -/
theorem c6_witness :
    (∑ t ∈ Finset.range (attnWeights MAtt xT2).time,
      (attnWeights MAtt xT2).entry t 0 0) = 1 := by
  obtain ⟨-, h2⟩ := c6_attention_softmax MAtt xT2 (bnPart MAtt xT2) (attnWeights MAtt xT2)
    rfl (by decide)
  exact h2 0 0

/-! Claims C5 and C10: the normalisation properties. -/

/-- The hyperbolic tangent of 1 is positive (used by concrete witnesses). -/
theorem tanh_one_pos : (0:ℝ) < Real.tanh 1 := by
  rw [Real.tanh_eq_sinh_div_cosh]
  exact div_pos (Real.sinh_pos_iff.mpr one_pos) (Real.cosh_pos 1)

/-- Batch normalisation with batch statistics sends a batch of size one to
zero: the single row equals the batch mean. -/
theorem batchNorm_batch_one (e : Tensor2) (hb : e.batch = 1) (d : ℕ) :
    (batchNorm e).entry 0 d = 0 := by
  have hm : bnMean e d = e.entry 0 d := by
    rw [bnMean, hb]
    simp
  show (e.entry 0 d - bnMean e d) / Real.sqrt (bnVar e d + bnEps) = 0
  rw [hm, sub_self, zero_div]

/-- C5 counterexample: with `normalize=True` and `batch_normalization=True`
and batch size 1, `forward` succeeds but returns the zero vector (batch
normalisation maps the single row to zero), whose L2 norm is 0, not 1 — so
the unit-norm claim fails once batch normalisation is enabled. -/
theorem c5_counterexample :
    MBn.cfg.normalize = true ∧ MBn.cfg.batch_normalization = true ∧
      ClopiNet.forward MBn x0 = Except.ok (ForwardOut.emb (bnPart MBn x0)) ∧
      rowNorm (bnPart MBn x0) 0 ≠ 1 := by
  refine ⟨rfl, rfl, rfl, ?_⟩
  have hzero : ∀ d, (bnPart MBn x0).entry 0 d = 0 := by
    intro d
    show (batchNorm (normPart MBn x0)).entry 0 d = 0
    exact batchNorm_batch_one _ rfl d
  have h0 : rowNorm (bnPart MBn x0) 0 = 0 := by
    rw [rowNorm, Finset.sum_eq_zero fun i _ => by rw [hzero i]; simp]
    exact Real.sqrt_zero
  rw [h0]
  norm_num

/-- C5 amended: with `normalize=True`, every embedding row returned by
`forward` has L2 norm 1 provided batch normalisation is off and the pooled
vector of that batch element has nonzero norm; batch normalisation is
applied after the L2 step and breaks the property, and a zero pooled vector
is divided by a zero norm (claim C10). -/
theorem c5_unit_norm (M : ClopiNet) (x : Tensor3) (r : ForwardOut) (e : Tensor2) (b : ℕ)
    (hfwd : ClopiNet.forward M x = Except.ok r)
    (he : r.embedding? = some e)
    (hn : M.cfg.normalize = true)
    (hb : M.cfg.batch_normalization = false)
    (hnz : rowNorm (pooledPart M x) b ≠ 0) :
    rowNorm e b = 1 := by
  have he2 := forward_embedding _ _ _ _ hfwd he
  subst he2
  have hE : bnPart M x = l2normRows (pooledPart M x) := by
    rw [bnPart, if_neg (by simp [hb]), normPart, if_pos hn]
  rw [hE]
  have hS : (0:ℝ) ≤ ∑ d ∈ Finset.range (pooledPart M x).feat,
      (pooledPart M x).entry b d ^ 2 :=
    Finset.sum_nonneg fun i _ => sq_nonneg _
  have hSne : (∑ d ∈ Finset.range (pooledPart M x).feat,
      (pooledPart M x).entry b d ^ 2) ≠ 0 := by
    intro h0
    exact hnz (by rw [rowNorm, h0, Real.sqrt_zero])
  have hentry : ∀ d ∈ Finset.range (pooledPart M x).feat,
      (l2normRows (pooledPart M x)).entry b d ^ 2 =
        (pooledPart M x).entry b d ^ 2 /
          (∑ dd ∈ Finset.range (pooledPart M x).feat, (pooledPart M x).entry b dd ^ 2) := by
    intro d _
    show ((pooledPart M x).entry b d / rowNorm (pooledPart M x) b) ^ 2 = _
    rw [div_pow, rowNorm, Real.sq_sqrt hS]
  rw [rowNorm, l2normRows_feat, Finset.sum_congr rfl hentry, ← Finset.sum_div,
    div_self hSne, Real.sqrt_one]

/-- C5 witness: on the bias-1 module (batch normalisation off) the pooled
vector has norm `tanh 1 ≠ 0` and the returned embedding row has norm 1. -/
theorem c5_witness :
    rowNorm (pooledPart MN1 x0) 0 ≠ 0 ∧ rowNorm (bnPart MN1 x0) 0 = 1 := by
  have hp : rowNorm (pooledPart MN1 x0) 0 = Real.tanh 1 := by
    have h : (pooledPart MN1 x0).entry 0 0 = Real.tanh 1 := by
      show (∑ t ∈ Finset.range 1, (attnPart MN1 x0).entry t 0 0) = Real.tanh 1
      rw [Finset.sum_range_one]
      show Real.tanh ((∑ j ∈ Finset.range 1, (0:ℝ) * (recPart MN1 x0).entry 0 0 j) + 1) =
        Real.tanh 1
      simp
    rw [rowNorm]
    show Real.sqrt (∑ d ∈ Finset.range 1, (pooledPart MN1 x0).entry 0 d ^ 2) = Real.tanh 1
    rw [Finset.sum_range_one, h, Real.sqrt_sq (le_of_lt tanh_one_pos)]
  have hnz : rowNorm (pooledPart MN1 x0) 0 ≠ 0 := by
    rw [hp]
    exact ne_of_gt tanh_one_pos
  exact ⟨hnz, c5_unit_norm MN1 x0 (ForwardOut.emb (bnPart MN1 x0)) (bnPart MN1 x0) 0
    rfl rfl rfl rfl hnz⟩

/-- C10: the L2 normalisation of the pooled vectors divides by the computed
norm with no zero guard: whenever the pooled vector of batch element `b` has
zero norm (with `normalize=True` and batch normalisation off), the embedding
row returned by `forward` is literally a division by zero, and its entries
and norm are 0 — not a unit vector — so the unit-norm property needs a
nonzero-vector precondition. -/
theorem c10_unguarded_normalize (M : ClopiNet) (x : Tensor3) (r : ForwardOut) (e : Tensor2)
    (b : ℕ)
    (hfwd : ClopiNet.forward M x = Except.ok r)
    (he : r.embedding? = some e)
    (hn : M.cfg.normalize = true)
    (hb : M.cfg.batch_normalization = false)
    (hz : rowNorm (pooledPart M x) b = 0) :
    (∀ d, e.entry b d = (pooledPart M x).entry b d / 0) ∧
      (∀ d, e.entry b d = 0) ∧ rowNorm e b = 0 := by
  have he2 := forward_embedding _ _ _ _ hfwd he
  subst he2
  have hE : bnPart M x = l2normRows (pooledPart M x) := by
    rw [bnPart, if_neg (by simp [hb]), normPart, if_pos hn]
  rw [hE]
  refine ⟨fun d => ?_, fun d => ?_, ?_⟩
  · show (pooledPart M x).entry b d / rowNorm (pooledPart M x) b = _
    rw [hz]
  · show (pooledPart M x).entry b d / rowNorm (pooledPart M x) b = 0
    rw [hz, div_zero]
  · have h0 : ∀ i ∈ Finset.range (l2normRows (pooledPart M x)).feat,
        (l2normRows (pooledPart M x)).entry b i ^ 2 = 0 := by
      intro i _
      show ((pooledPart M x).entry b i / rowNorm (pooledPart M x) b) ^ 2 = 0
      rw [hz, div_zero]
      norm_num
    rw [rowNorm, Finset.sum_eq_zero h0, Real.sqrt_zero]

/-- C10 witness: on the all-zero module the pooled vector is zero, and the
embedding returned with `normalize=True` is a division by the zero norm,
yielding norm 0 rather than 1. -/
theorem c10_witness :
    rowNorm (pooledPart Mz x0) 0 = 0 ∧ (bnPart Mz x0).entry 0 0 = 0 ∧
      rowNorm (bnPart Mz x0) 0 = 0 := by
  have hz : rowNorm (pooledPart Mz x0) 0 = 0 := by
    have h : ∀ d, (pooledPart Mz x0).entry 0 d = 0 := by
      intro d
      show (∑ t ∈ Finset.range 1, (attnPart Mz x0).entry t 0 d) = 0
      rw [Finset.sum_range_one]
      show Real.tanh ((∑ j ∈ Finset.range 1, (0:ℝ) * (recPart Mz x0).entry 0 0 j) + 0) = 0
      simp
    rw [rowNorm, Finset.sum_eq_zero fun i _ => by rw [h i]; simp]
    exact Real.sqrt_zero
  obtain ⟨-, h2, h3⟩ := c10_unguarded_normalize Mz x0 (ForwardOut.emb (bnPart Mz x0))
    (bnPart Mz x0) 0 rfl rfl rfl rfl hz
  exact ⟨hz, h2 0, h3⟩
